import Mathlib

/-!
A shallow embedding of the `beacon.api` device registry (the Redis-backed
`RedisRegistry` in `beacon/device/streamer_connection.go`), the token HTTP
handler (`beacon/routes/tokens.go`) and the device control processor
(specified in section 4.6 of the design document; its test lives in
`beacon/bg/device_control_test.go`).

The Redis store is modelled as a pure state (association lists for hashes
and lists); each registry method becomes a Lean function mirroring the Go
control flow.  Store commands themselves are infallible in the model; the
fallible parts (missing keys, nil replies, empty fields, unparseable
permission masks) are modelled exactly as the Go wrappers observe them
through redigo (`redis.String` errors on a nil reply; `redis.Strings`
converts nil array items to `""`).
-/

deriving instance DecidableEq for Except

namespace Beacon

/-! ## Key and field constants

Values of `device:*` fields are pinned by `redis_registry_test.go`; the key
namespaces and the remaining field names are modelled from the spec
(section 6, persistence layout), since `beacon/defs/redis.go` is not part
of the provided sources. -/

/-- Modelled from the spec: key namespace `device-registry:{id}` (the
`defs.RedisDeviceRegistryKey` constant is not under `src/`). -/
def RedisDeviceRegistryKey : String := "device-registry"

/-- Modelled from the spec: the `device-index` list key. -/
def RedisDeviceIndexKey : String := "device-index"

/-- Modelled from the spec: key namespace `device-feedback:{id}`. -/
def RedisDeviceFeedbackKey : String := "device-feedback"

/-- Modelled from the spec: key namespace `registration-request:{allocUUID}`. -/
def RedisRegistrationRequestListKey : String := "registration-request"

/-- Modelled from the spec: key namespace `device-token:{rawToken}`. -/
def RedisDeviceTokenRegistrationKey : String := "device-token"

/-- Modelled from the spec: key namespace `device-token-list:{deviceID}`. -/
def RedisDeviceTokenListKey : String := "device-token-list"

/-- Hash field `device:uuid` (value visible in `redis_registry_test.go`). -/
def RedisDeviceIDField : String := "device:uuid"

/-- Hash field `device:name` (value visible in `redis_registry_test.go`). -/
def RedisDeviceNameField : String := "device:name"

/-- Hash field `device:secret` (value visible in `redis_registry_test.go`). -/
def RedisDeviceSecretField : String := "device:secret"

/-- Modelled from the spec: hash field `registration:name`. -/
def RedisRegistrationNameField : String := "registration:name"

/-- Modelled from the spec: hash field `registration:secret`. -/
def RedisRegistrationSecretField : String := "registration:secret"

/-- Modelled from the spec: hash field `token:id`. -/
def RedisDeviceTokenIDField : String := "token:id"

/-- Modelled from the spec: hash field `token:name`. -/
def RedisDeviceTokenNameField : String := "token:name"

/-- Modelled from the spec: hash field `token:device`. -/
def RedisDeviceTokenDeviceIDField : String := "token:device"

/-- Modelled from the spec: hash field `token:permission`. -/
def RedisDeviceTokenPermissionField : String := "token:permission"

/-- Modelled from the spec: the bounded feedback ring size `MAX_FEEDBACK`
(the spec gives 50; `defs.RedisMaxFeedbackEntries` is not under `src/`). -/
def RedisMaxFeedbackEntries : Nat := 50

/-- `defs.SecurityMinimumDeviceSharedSecretSize` (in the `defs` source
appended to the test sources). -/
def SecurityMinimumDeviceSharedSecretSize : Nat := 20

/-- `defs.SecurityDeviceTokenPermissionViewer = 1 << 0`. -/
def SecurityDeviceTokenPermissionViewer : Nat := 1

/-- `defs.SecurityDeviceTokenPermissionController = 1 << 1`. -/
def SecurityDeviceTokenPermissionController : Nat := 2

/-- `defs.SecurityDeviceTokenPermissionAdmin = 1 << 2`. -/
def SecurityDeviceTokenPermissionAdmin : Nat := 4

/-- `defs.SecurityDeviceTokenPermissionAll = admin ||| controller ||| viewer`. -/
def SecurityDeviceTokenPermissionAll : Nat := 7

/-- Error string `not-found` (literal in the conn-based registry, used by
`defs.ErrNotFound`). -/
def ErrNotFound : String := "not-found"

/-- Error string for `defs.ErrInvalidRegistrationRequest` (literal
`invalid-registration` in the conn-based registry). -/
def ErrInvalidRegistrationRequest : String := "invalid-registration"

/-- Error string for `defs.ErrBadInterchangeAuthentication`. -/
def ErrBadInterchangeAuthentication : String := "invalid feedback authentication"

/-- Error raised by `hmgetstr` when a requested hash field is empty. -/
def ErrInvalidEntry : String := "invalid-entry"

/-- Error raised by `loadDetails` when a device field has length at most 1. -/
def ErrInvalidDevice : String := "invalid-device"

/-- Error raised by `loadRequest` when a request field has length at most 1. -/
def ErrInvalidRequest : String := "invalid-request"

/-- Error raised by `redis.String` on a nil reply (redigo `ErrNil`). -/
def ErrRedisNil : String := "redigo: nil returned"

/-- Error returned by `FindToken` when `strconv.ParseUint` rejects the
stored permission mask. -/
def ErrBadMask : String := "invalid syntax"

/-! ## The Redis store model -/

/-- Association-list get, mirroring a keyed lookup in the store. -/
def aget {α : Type} : List (String × α) → String → Option α
  | [], _ => none
  | (k', v) :: rest, k => if k = k' then some v else aget rest k

/-- Association-list set: replaces the binding for `k`, or appends it. -/
def aset {α : Type} : List (String × α) → String → α → List (String × α)
  | [], k, v => [(k, v)]
  | (k', v') :: rest, k, v =>
      if k = k' then (k, v) :: rest else (k', v') :: aset rest k v

/-- The Redis store state: hash keys and list keys. -/
structure RedisState where
  hashes : List (String × List (String × String))
  lists : List (String × List String)
  deriving Repr, DecidableEq

/-- `HGET key field`: `none` models a nil reply (missing key or field). -/
def hget (st : RedisState) (k f : String) : Option String :=
  match aget st.hashes k with
  | none => none
  | some h => aget h f

/-- `EXISTS key` for a hash key. -/
def existsKey (st : RedisState) (k : String) : Bool :=
  (aget st.hashes k).isSome

/-- `HMSET key pairs...`: writes each field/value pair into the hash. -/
def hmset (st : RedisState) (k : String) (pairs : List (String × String)) :
    RedisState :=
  { st with
    hashes :=
      aset st.hashes k
        (pairs.foldl (fun h p => aset h p.1 p.2) ((aget st.hashes k).getD [])) }

/-- The list stored at `k` (`LRANGE key 0 -1`; missing key is the empty list). -/
def getList (st : RedisState) (k : String) : List String :=
  (aget st.lists k).getD []

/-- `LLEN key`. -/
def llen (st : RedisState) (k : String) : Nat :=
  (getList st k).length

/-- `LPUSH key v`: prepends to the list. -/
def lpush (st : RedisState) (k v : String) : RedisState :=
  { st with lists := aset st.lists k (v :: getList st k) }

/-- `LTRIM key 0 stop`: keeps the elements at indices `0..stop`. -/
def ltrim (st : RedisState) (k : String) (stop : Nat) : RedisState :=
  { st with lists := aset st.lists k ((getList st k).take (stop + 1)) }

/-- `DEL key`: removes the key from both keyspaces. -/
def del (st : RedisState) (k : String) : RedisState :=
  { hashes := st.hashes.filter (fun p => p.1 ≠ k),
    lists := st.lists.filter (fun p => p.1 ≠ k) }

/-- Boolean string-prefix test on the underlying character lists. -/
def strHasPref (p k : String) : Bool :=
  p.data.isPrefixOf k.data

/-- `KEYS pat*`: the hash keys matching the pattern, in store order.  (All
keys scanned by the registry — device rows and allocation rows — are hash
keys.) -/
def hashKeysMatching (st : RedisState) (p : String) : List String :=
  (st.hashes.map Prod.fst).filter (fun k => strHasPref p k)

/-- `redis.String(HGET ...)`: errors on a nil reply (redigo `ErrNil`),
mirroring `RedisRegistry.hgetstr`. -/
def hgetstr (st : RedisState) (k f : String) : Except String String :=
  match hget st k f with
  | none => Except.error ErrRedisNil
  | some v => Except.ok v

/-- `hmgetstr` over three fields: `redis.Strings` converts nil array items
to `""`, and `RedisRegistry.hmgetstr` then rejects any empty value with an
`invalid-entry` error. -/
def hmget3 (st : RedisState) (k f1 f2 f3 : String) :
    Except String (String × String × String) :=
  if (hget st k f1).getD "" = "" ∨ (hget st k f2).getD "" = "" ∨
      (hget st k f3).getD "" = "" then
    Except.error ErrInvalidEntry
  else Except.ok ((hget st k f1).getD "", (hget st k f2).getD "", (hget st k f3).getD "")

/-- `hmgetstr` over two fields (used by `loadRequest`). -/
def hmget2 (st : RedisState) (k f1 f2 : String) :
    Except String (String × String) :=
  if (hget st k f1).getD "" = "" ∨ (hget st k f2).getD "" = "" then
    Except.error ErrInvalidEntry
  else Except.ok ((hget st k f1).getD "", (hget st k f2).getD "")

/-! ## Basic store lemmas -/

theorem aget_aset {α : Type} (l : List (String × α)) (k k' : String) (v : α) :
    aget (aset l k v) k' = if k' = k then some v else aget l k' := by
  induction l with
  | nil => simp [aset, aget]
  | cons p rest ih =>
    obtain ⟨pk, pv⟩ := p
    by_cases h : k = pk
    · subst h
      by_cases h' : k' = k <;> simp [aset, aget, h']
    · by_cases h' : k' = pk
      · subst h'
        simp [aset, aget, h, Ne.symm h]
      · simp [aset, aget, h, h', ih]

theorem aget_aset_self {α : Type} (l : List (String × α)) (k : String) (v : α) :
    aget (aset l k v) k = some v := by
  simp [aget_aset]

theorem aget_aset_ne {α : Type} (l : List (String × α)) (k k' : String) (v : α)
    (h : k' ≠ k) : aget (aset l k v) k' = aget l k' := by
  simp [aget_aset, h]

theorem getList_lpush (st : RedisState) (k v : String) (k' : String) :
    getList (lpush st k v) k' =
      if k' = k then v :: getList st k else getList st k' := by
  by_cases h : k' = k <;> simp [getList, lpush, aget_aset, h]

theorem getList_ltrim (st : RedisState) (k : String) (stop : Nat) (k' : String) :
    getList (ltrim st k stop) k' =
      if k' = k then (getList st k).take (stop + 1) else getList st k' := by
  by_cases h : k' = k <;> simp [getList, ltrim, aget_aset, h]

theorem hget_lpush (st : RedisState) (k v q f : String) :
    hget (lpush st k v) q f = hget st q f := by
  simp [hget, lpush]

/-! ## Binary permission masks

`CreateToken` stores the permission as `fmt.Sprintf("%b", permission)` and
`FindToken` recovers it with `strconv.ParseUint(mask, 2, 32)`. -/

/-- The binary digits of `n`, most significant first (empty for 0),
mirroring the digits emitted by Go's `%b` verb. -/
def binCore (n : Nat) : List Char :=
  if _h : n = 0 then []
  else binCore (n / 2) ++ [if n % 2 = 1 then '1' else '0']
  termination_by n
  decreasing_by exact Nat.div_lt_self (Nat.pos_of_ne_zero _h) (by decide)

/-- `fmt.Sprintf("%b", n)`. -/
def toBin (n : Nat) : String :=
  if n = 0 then "0" else String.mk (binCore n)

/-- The numeric value of one binary digit character. -/
def binDigitVal (c : Char) : Option Nat :=
  if c = '0' then some 0 else if c = '1' then some 1 else none

/-- The accumulator loop of `strconv.ParseUint` in base 2. -/
def parseBinAux : List Char → Nat → Option Nat
  | [], acc => some acc
  | c :: cs, acc =>
    match binDigitVal c with
    | none => none
    | some d => parseBinAux cs (2 * acc + d)

/-- `strconv.ParseUint(s, 2, 32)`: rejects the empty string, non-binary
digits, and values that do not fit in 32 bits. -/
def parseUintBin32 (s : String) : Option Nat :=
  if s.data = [] then none
  else
    match parseBinAux s.data 0 with
    | none => none
    | some v => if v < 2 ^ 32 then some v else none

theorem parseBinAux_append (l1 l2 : List Char) (acc : Nat) :
    parseBinAux (l1 ++ l2) acc =
      match parseBinAux l1 acc with
      | none => none
      | some a => parseBinAux l2 a := by
  induction l1 generalizing acc with
  | nil => simp [parseBinAux]
  | cons c cs ih =>
    cases hc : binDigitVal c <;> simp [parseBinAux, hc, ih]

theorem parseBinAux_binCore (n : Nat) :
    ∀ acc, parseBinAux (binCore n) acc =
      some (acc * 2 ^ (binCore n).length + n) := by
  induction n using Nat.strong_induction_on with
  | _ n ih =>
    intro acc
    by_cases h : n = 0
    · subst h
      simp [binCore, parseBinAux]
    · rw [binCore]
      simp only [h, dite_false]
      rw [parseBinAux_append, ih (n / 2) (Nat.div_lt_self (Nat.pos_of_ne_zero h) (by decide))]
      have hlen : (binCore n).length = (binCore (n / 2)).length + 1 := by
        conv_lhs => rw [binCore]
        simp [h]
      by_cases hm : n % 2 = 1
      · simp only [hm, if_true, parseBinAux, binDigitVal, if_false]
        simp only [show ('1' : Char) = '0' ↔ False by decide, if_false, if_true]
        simp [parseBinAux, hlen]
        ring_nf
        omega
      · simp only [hm, if_false, parseBinAux, binDigitVal, if_true]
        simp [parseBinAux, hlen]
        have : n % 2 = 0 := by omega
        ring_nf
        omega

theorem binCore_ne_nil (n : Nat) (hn : n ≠ 0) : binCore n ≠ [] := by
  rw [binCore]
  simp [hn]

/-- The stored base-2 mask round-trips through `ParseUint(_, 2, 32)` for
every permission representable in 32 bits. -/
theorem parseUintBin32_toBin (n : Nat) (h : n < 2 ^ 32) :
    parseUintBin32 (toBin n) = some n := by
  by_cases h0 : n = 0
  · subst h0
    simp [toBin, parseUintBin32, parseBinAux, binDigitVal]
  · have hne : (String.mk (binCore n)).data = binCore n := rfl
    simp only [toBin, h0, if_false, parseUintBin32, hne]
    rw [if_neg (binCore_ne_nil n h0)]
    rw [parseBinAux_binCore n 0]
    simp only [Nat.zero_mul, Nat.zero_add]
    rw [if_pos h]

/-! ## Registry data types -/

/-- `device.RegistrationDetails`. -/
structure RegistrationDetails where
  deviceID : String
  name : String
  sharedSecret : String
  deriving Repr, DecidableEq

/-- `device.RegistrationRequest`. -/
structure RegistrationRequest where
  name : String
  sharedSecret : String
  deriving Repr, DecidableEq

/-- `device.TokenDetails`. -/
structure TokenDetails where
  tokenID : String
  deviceID : String
  token : String
  name : String
  permission : Nat
  deriving Repr, DecidableEq

/-- `interchange.DeviceMessageAuthentication` (the fields read by the
registry). -/
structure MessageAuthentication where
  deviceID : String
  messageDigest : String
  deriving Repr, DecidableEq

/-- `interchange.FeedbackMessage`: an authentication pointer (which may be
nil) plus an opaque payload. -/
structure FeedbackMessage where
  authentication : Option MessageAuthentication
  payload : String
  deriving Repr, DecidableEq

/-- `proto.MarshalText` of a feedback message: an opaque total encoding. -/
def marshalFeedback (msg : FeedbackMessage) : String :=
  match msg.authentication with
  | none => "feedback::" ++ msg.payload
  | some auth => "feedback:" ++ auth.deviceID ++ ":" ++ msg.payload

/-! ## Key generators (`RedisRegistry.gen*Key`) -/

def genRegistryKey (id : String) : String :=
  RedisDeviceRegistryKey ++ ":" ++ id

def genFeedbackKey (id : String) : String :=
  RedisDeviceFeedbackKey ++ ":" ++ id

def genAllocationKey (id : String) : String :=
  RedisRegistrationRequestListKey ++ ":" ++ id

def genTokenRegistrationKey (token : String) : String :=
  RedisDeviceTokenRegistrationKey ++ ":" ++ token

def genTokenListKey (id : String) : String :=
  RedisDeviceTokenListKey ++ ":" ++ id

/-! ## Registry operations (pooled `RedisRegistry`, the version exercised by
`redis_registry_test.go`) -/

/-- `RedisRegistry.loadDetails`: HMGET the three device fields, then reject
any value of length at most 1. -/
def loadDetails (st : RedisState) (deviceKey : String) :
    Except String RegistrationDetails :=
  match hmget3 st deviceKey RedisDeviceIDField RedisDeviceNameField RedisDeviceSecretField with
  | Except.error e => Except.error e
  | Except.ok (v1, v2, v3) =>
    if v1.length ≤ 1 ∨ v2.length ≤ 1 ∨ v3.length ≤ 1 then
      Except.error ErrInvalidDevice
    else Except.ok ⟨v1, v2, v3⟩

/-- `RedisRegistry.loadRequest`: HMGET secret and name, then reject any
value of length at most 1. -/
def loadRequest (st : RedisState) (requestKey : String) :
    Except String RegistrationRequest :=
  match hmget2 st requestKey RedisRegistrationSecretField RedisRegistrationNameField with
  | Except.error e => Except.error e
  | Except.ok (v1, v2) =>
    if v1.length ≤ 1 ∨ v2.length ≤ 1 then Except.error ErrInvalidRequest
    else Except.ok ⟨v2, v1⟩

/-- The `KEYS device-registry*` fallback loop of `FindDevice`: HMGET each
row (name, uuid, secret); a row-level error aborts the whole lookup; the
first row whose name or uuid equals the query is returned. -/
def scanDevices (st : RedisState) (query : String) :
    List String → Except String RegistrationDetails
  | [] => Except.error ErrNotFound
  | k :: ks =>
    match hmget3 st k RedisDeviceNameField RedisDeviceIDField RedisDeviceSecretField with
    | Except.error e => Except.error e
    | Except.ok (nm, id, secret) =>
      if nm = query ∨ id = query then Except.ok ⟨id, nm, secret⟩
      else scanDevices st query ks

/-- `RedisRegistry.FindDevice`: fast path `EXISTS device-registry:{query}`
with `loadDetails`, falling back to the `KEYS` scan. -/
def findDevice (st : RedisState) (query : String) :
    Except String RegistrationDetails :=
  let registryKey := genRegistryKey query
  if existsKey st registryKey then loadDetails st registryKey
  else scanDevices st query (hashKeysMatching st RedisDeviceRegistryKey)

/-- `RedisRegistry.LogFeedback` (pooled): require authentication, find the
device, LLEN the feedback list, LTRIM to `MAX_FEEDBACK-1` entries when the
count reaches `MAX_FEEDBACK`, then LPUSH the text marshalling.  The state
is returned unchanged on every error path. -/
def logFeedback (st : RedisState) (msg : FeedbackMessage) :
    Except String Unit × RedisState :=
  match msg.authentication with
  | none => (Except.error ErrBadInterchangeAuthentication, st)
  | some auth =>
    match findDevice st auth.deviceID with
    | Except.error e => (Except.error e, st)
    | Except.ok details =>
      let feedbackKey := genFeedbackKey details.deviceID
      let count := llen st feedbackKey
      let st1 :=
        if RedisMaxFeedbackEntries ≤ count then
          ltrim st feedbackKey (RedisMaxFeedbackEntries - 2)
        else st
      (Except.ok (), lpush st1 feedbackKey (marshalFeedback msg))

/-- `RedisRegistry.AllocateRegistration` (pooled): reject names shorter
than 4 or secrets shorter than `SecurityMinimumDeviceSharedSecretSize`
characters, otherwise HMSET the allocation row `alloc:{uuid}`.  The fresh
allocation UUID (`uuid.NewV4` in Go) is passed in as `allocID`. -/
def allocateRegistration (st : RedisState) (allocID : String)
    (details : RegistrationRequest) : Except String Unit × RedisState :=
  let registryKey := genAllocationKey allocID
  if details.name.length < 4 ∨
      details.sharedSecret.length < SecurityMinimumDeviceSharedSecretSize then
    (Except.error ErrInvalidRegistrationRequest, st)
  else
    (Except.ok (),
      hmset st registryKey
        [(RedisRegistrationNameField, details.name),
         (RedisRegistrationSecretField, details.sharedSecret)])

/-- `RedisRegistry.fill`: load the allocation row, LPUSH the device id onto
the index, HMSET the device row, and (deferred) DEL the allocation row. -/
def fillRow (st : RedisState) (requestKey deviceID : String) :
    Except String Unit × RedisState :=
  match loadRequest st requestKey with
  | Except.error e => (Except.error e, st)
  | Except.ok request =>
    let st1 := lpush st RedisDeviceIndexKey deviceID
    let st2 :=
      hmset st1 (genRegistryKey deviceID)
        [(RedisDeviceIDField, deviceID),
         (RedisDeviceNameField, request.name),
         (RedisDeviceSecretField, request.sharedSecret)]
    (Except.ok (), del st2 requestKey)

/-- The scan loop of `FillRegistration`: HGET each allocation row's secret
field; a row whose read errors (nil reply) is skipped; the first row whose
secret equals the target is filled; otherwise not-found. -/
def fillScan (st : RedisState) (secret deviceID : String) :
    List String → Except String Unit × RedisState
  | [] => (Except.error ErrNotFound, st)
  | k :: ks =>
    match hget st k RedisRegistrationSecretField with
    | none => fillScan st secret deviceID ks
    | some s =>
      if s = secret then fillRow st k deviceID
      else fillScan st secret deviceID ks

/-- `RedisRegistry.FillRegistration` (pooled): `KEYS registration-request*`
then the scan loop. -/
def fillRegistration (st : RedisState) (secret deviceID : String) :
    Except String Unit × RedisState :=
  fillScan st secret deviceID (hashKeysMatching st RedisRegistrationRequestListKey)

/-- `RedisRegistry.FindToken`: HGET the permission field, parse it in base
2 (32 bits), then HMGET id, name and device.  The `Token` field of the
result is left at its zero value. -/
def findToken (st : RedisState) (token : String) : Except String TokenDetails :=
  let registryKey := genTokenRegistrationKey token
  match hgetstr st registryKey RedisDeviceTokenPermissionField with
  | Except.error e => Except.error e
  | Except.ok permissionMask =>
    match parseUintBin32 permissionMask with
    | none => Except.error ErrBadMask
    | some permission =>
      match hmget3 st registryKey RedisDeviceTokenIDField RedisDeviceTokenNameField RedisDeviceTokenDeviceIDField with
      | Except.error e => Except.error e
      | Except.ok (id, nm, dev) => Except.ok ⟨id, dev, "", nm, permission⟩

/-- `RedisRegistry.AuthorizeToken` (pooled version, lines 389-410): find
the device, accept the shared secret outright, otherwise find the token
and require every requested bit: `permission &&& mask == mask`. -/
def authorizeToken (st : RedisState) (deviceID token : String)
    (permission : Nat) : Bool :=
  match findDevice st deviceID with
  | Except.error _ => false
  | Except.ok registration =>
    if token = registration.sharedSecret then true
    else
      match findToken st token with
      | Except.error _ => false
      | Except.ok requester => requester.permission &&& permission = permission

/-- `RedisRegistry.AuthorizeToken` (conn-based version, lines 969-990):
identical except for the final check, which accepts any overlapping bit:
`permission &&& mask != 0`.  (That version's `FindDevice`/`FindToken`
bodies coincide with the pooled ones on every path taken here.) -/
def authorizeTokenConn (st : RedisState) (deviceID token : String)
    (permission : Nat) : Bool :=
  match findDevice st deviceID with
  | Except.error _ => false
  | Except.ok registration =>
    if token = registration.sharedSecret then true
    else
      match findToken st token with
      | Except.error _ => false
      | Except.ok requester => requester.permission &&& permission ≠ 0

/-- `RedisRegistry.CreateToken` (pooled): find the device, generate a raw
token (`rawToken`, injected like the `TokenGenerator` collaborator, along
with the fresh `tokenID` UUID), LPUSH it onto the device's token list, and
HMSET the token row with the base-2 permission mask. -/
def createToken (st : RedisState) (deviceID tokenName : String)
    (permission : Nat) (tokenID rawToken : String) :
    Except String (TokenDetails × RedisState) :=
  let listKey := genTokenListKey deviceID
  let permissionMask := toBin permission
  match findDevice st deviceID with
  | Except.error e => Except.error e
  | Except.ok _ =>
    let st1 := lpush st listKey rawToken
    let registryKey := genTokenRegistrationKey rawToken
    let st2 :=
      hmset st1 registryKey
        [(RedisDeviceTokenNameField, tokenName),
         (RedisDeviceTokenPermissionField, permissionMask),
         (RedisDeviceTokenIDField, tokenID),
         (RedisDeviceTokenDeviceIDField, deviceID)]
    Except.ok (⟨tokenID, deviceID, rawToken, tokenName, permission⟩, st2)

/-! ## HTTP token handler (`routes/tokens.go`) -/

/-- The parsed JSON body of `POST /device-tokens`. -/
structure TokenRequest where
  deviceID : String
  name : String
  permission : Nat
  deriving Repr, DecidableEq

/-- The outcome of the handler, as far as the registry is concerned. -/
inductive HandlerResult where
  | logicError (msg : String)
  | serverError
  | ok (details : TokenDetails) (st : RedisState)
  deriving Repr, DecidableEq

/-- `Tokens.CreateToken` (`routes/tokens.go`), starting from the parsed
request body: default the permission to viewer when no known bit is set,
require a name of at least 5 characters, find the device, require a
non-empty `X-User-Token` header authorized against the admin permission,
then create the token. -/
def tokensCreateToken (st : RedisState) (request : TokenRequest)
    (headerToken : String) (tokenID rawToken : String) : HandlerResult :=
  let request1 :=
    if request.permission &&& SecurityDeviceTokenPermissionAll = 0 then
      { request with permission := SecurityDeviceTokenPermissionViewer }
    else request
  if request1.name.length < 5 then HandlerResult.logicError "invalid-name"
  else
    match findDevice st request1.deviceID with
    | Except.error _ => HandlerResult.logicError "not-found"
    | Except.ok registration =>
      if headerToken = "" then HandlerResult.logicError "invalid-token"
      else if authorizeToken st registration.deviceID headerToken
          SecurityDeviceTokenPermissionAdmin = false then
        HandlerResult.logicError "invalid-token"
      else
        match createToken st registration.deviceID request1.name
            request1.permission tokenID rawToken with
        | Except.error _ => HandlerResult.serverError
        | Except.ok (details, st2) => HandlerResult.ok details st2

/-! ## Device control processor

Modelled from the spec: the processor implementation (`bg/device_control.go`)
is not under `src/`; only its test is.  Section 4.6 of the spec describes a
single-writer loop over registrations, commands, feedback and a kill
switch; Kill or closure of the command or registration stream triggers the
draining effect: `Close()` on each pooled connection, then the wait handle
is signalled. -/

/-- Modelled from the spec: one ready input observed by the processor at a
selection point.  Stream closure is delivered as an input. -/
inductive PInput where
  | registration (id : String)
  | command (target : String)
  | feedback
  | kill
  | commandsClosed
  | registrationsClosed
  deriving Repr, DecidableEq

/-- Modelled from the spec: the externally observable effects of the
processor: closing a connection, sending to a pooled connection, and
releasing the caller's wait handle. -/
inductive Effect where
  | closeConn (id : String)
  | send (id : String)
  | waitDone
  deriving Repr, DecidableEq

/-- Modelled from the spec: the draining effect — `Close()` on every pooled
connection, then the wait handle is released. -/
def drainEffects (pool : List String) : List Effect :=
  pool.map Effect.closeConn ++ [Effect.waitDone]

/-- Modelled from the spec: one non-terminating dispatch step.  A
registration is pooled after the `FindDevice` sanity check (`known`), and
closed without pooling on failure; a command is sent to the pooled target
if present (errors never evict); feedback is archived through the
registry, with no effect on the pool. -/
def procStep (known : String → Bool) (pool : List String) :
    PInput → List String × List Effect
  | PInput.registration id =>
    if known id then (pool ++ [id], []) else (pool, [Effect.closeConn id])
  | PInput.command target =>
    (pool, if target ∈ pool then [Effect.send target] else [])
  | PInput.feedback => (pool, [])
  | PInput.kill => (pool, [])
  | PInput.commandsClosed => (pool, [])
  | PInput.registrationsClosed => (pool, [])

/-- Modelled from the spec: the processor loop.  Inputs are handled in
arrival order; the first terminator (Kill, command-stream closure or
registration-stream closure) triggers the draining effect exactly once and
ends the run. -/
def procRun (known : String → Bool) (pool : List String) :
    List PInput → List Effect
  | [] => []
  | i :: rest =>
    match i with
    | PInput.kill => drainEffects pool
    | PInput.commandsClosed => drainEffects pool
    | PInput.registrationsClosed => drainEffects pool
    | _ =>
      let out := procStep known pool i
      out.2 ++ procRun known out.1 rest

/-! ## Concrete fixtures (used by witnesses and counterexamples) -/

/-- The number of bytes `encoding/hex` produces for a hex string of the
given length (`hex.DecodedLen`): half the character count. -/
def hexDecodedLength (s : String) : Nat := s.length / 2

/-- An empty store. -/
def emptyStore : RedisState := { hashes := [], lists := [] }

/-- A store with one registered device (`dev-1`, shared secret `saysss`)
and one stored token (`tok-1`) whose permission mask is `100` (admin
only). -/
def exampleStore : RedisState :=
  { hashes :=
      [("device-registry:dev-1",
         [("device:uuid", "dev-1"), ("device:name", "lamp"),
          ("device:secret", "saysss")]),
       ("device-token:tok-1",
         [("token:id", "tid-1"), ("token:name", "tkn-1"),
          ("token:device", "dev-1"), ("token:permission", "100")])],
    lists := [] }

/-- A store with one pending allocation whose secret is `othersec`. -/
def allocStore : RedisState :=
  { hashes :=
      [("registration-request:a1",
         [("registration:secret", "othersec"),
          ("registration:name", "somename")])],
    lists := [] }

/-- A store with a broken allocation row (`b0`, no secret field) ahead of a
good one (`g1`, secret `sec-sec`). -/
def skipStore : RedisState :=
  { hashes :=
      [("registration-request:b0", [("registration:name", "nm-only")]),
       ("registration-request:g1",
         [("registration:secret", "sec-sec"),
          ("registration:name", "good-name")])],
    lists := [] }

/-- A feedback message authenticated as device `dev-1`. -/
def exampleFeedback : FeedbackMessage :=
  { authentication := some { deviceID := "dev-1", messageDigest := "" },
    payload := "pl" }

/-! ## Helper lemmas -/

theorem hmget3_ok_ne_empty (st : RedisState) (k f1 f2 f3 : String)
    (v : String × String × String) (h : hmget3 st k f1 f2 f3 = Except.ok v) :
    v.1 ≠ "" ∧ v.2.1 ≠ "" ∧ v.2.2 ≠ "" := by
  unfold hmget3 at h
  split at h
  · exact absurd h (by simp)
  · rename_i hne
    push_neg at hne
    obtain ⟨h1, h2, h3⟩ := hne
    obtain rfl : v = _ := (Except.ok.injEq _ _).mp h.symm
    exact ⟨h1, h2, h3⟩

theorem scanDevices_ok_ne_empty (st : RedisState) (q : String) :
    ∀ ks d, scanDevices st q ks = Except.ok d →
      d.deviceID ≠ "" ∧ d.name ≠ "" ∧ d.sharedSecret ≠ "" := by
  intro ks
  induction ks with
  | nil => intro d h; exact absurd h (by simp [scanDevices])
  | cons k ks ih =>
    intro d h
    unfold scanDevices at h
    cases hm : hmget3 st k RedisDeviceNameField RedisDeviceIDField RedisDeviceSecretField with
    | error e => rw [hm] at h; exact absurd h (by simp)
    | ok v =>
      rw [hm] at h
      obtain ⟨hv1, hv2, hv3⟩ := hmget3_ok_ne_empty st k _ _ _ v hm
      obtain ⟨v1, v2, v3⟩ := v
      dsimp only at h
      by_cases hq : v1 = q ∨ v2 = q
      · rw [if_pos hq] at h
        obtain rfl : d = _ := (Except.ok.injEq _ _).mp h.symm
        exact ⟨hv2, hv1, hv3⟩
      · rw [if_neg hq] at h
        exact ih d h

theorem createToken_ok (st : RedisState) (dev nm : String) (perm : Nat)
    (tid raw : String) (out : TokenDetails × RedisState)
    (h : createToken st dev nm perm tid raw = Except.ok out) :
    out.1 = ⟨tid, dev, raw, nm, perm⟩ ∧
    out.2 =
      hmset (lpush st (genTokenListKey dev) raw) (genTokenRegistrationKey raw)
        [(RedisDeviceTokenNameField, nm),
         (RedisDeviceTokenPermissionField, toBin perm),
         (RedisDeviceTokenIDField, tid),
         (RedisDeviceTokenDeviceIDField, dev)] := by
  unfold createToken at h
  cases hfd : findDevice st dev with
  | error e => rw [hfd] at h; exact absurd h (by simp)
  | ok reg =>
    rw [hfd] at h
    obtain rfl : out = _ := (Except.ok.injEq _ _).mp h.symm
    exact ⟨rfl, rfl⟩

theorem hget_tokenRow (st : RedisState) (k nm pm tid dev f : String) :
    hget
      (hmset st k
        [(RedisDeviceTokenNameField, nm),
         (RedisDeviceTokenPermissionField, pm),
         (RedisDeviceTokenIDField, tid),
         (RedisDeviceTokenDeviceIDField, dev)]) k f =
      if f = RedisDeviceTokenDeviceIDField then some dev
      else if f = RedisDeviceTokenIDField then some tid
      else if f = RedisDeviceTokenPermissionField then some pm
      else if f = RedisDeviceTokenNameField then some nm
      else hget st k f := by
  cases haux : aget st.hashes k with
  | none =>
    simp only [hmset, hget, List.foldl, aget_aset_self, aget_aset, haux,
      Option.getD_none, aget]
    split_ifs <;>
      simp_all [RedisDeviceTokenNameField, RedisDeviceTokenPermissionField,
        RedisDeviceTokenIDField, RedisDeviceTokenDeviceIDField]
  | some h0 =>
    simp only [hmset, hget, List.foldl, aget_aset_self, aget_aset, haux,
      Option.getD_some]

theorem hget_tokenRow_name (st : RedisState) (k nm pm tid dev : String) :
    hget
      (hmset st k
        [(RedisDeviceTokenNameField, nm), (RedisDeviceTokenPermissionField, pm),
         (RedisDeviceTokenIDField, tid), (RedisDeviceTokenDeviceIDField, dev)])
      k RedisDeviceTokenNameField = some nm := by
  rw [hget_tokenRow]
  simp [RedisDeviceTokenNameField, RedisDeviceTokenPermissionField,
    RedisDeviceTokenIDField, RedisDeviceTokenDeviceIDField]

theorem hget_tokenRow_perm (st : RedisState) (k nm pm tid dev : String) :
    hget
      (hmset st k
        [(RedisDeviceTokenNameField, nm), (RedisDeviceTokenPermissionField, pm),
         (RedisDeviceTokenIDField, tid), (RedisDeviceTokenDeviceIDField, dev)])
      k RedisDeviceTokenPermissionField = some pm := by
  rw [hget_tokenRow]
  simp [RedisDeviceTokenNameField, RedisDeviceTokenPermissionField,
    RedisDeviceTokenIDField, RedisDeviceTokenDeviceIDField]

theorem hget_tokenRow_id (st : RedisState) (k nm pm tid dev : String) :
    hget
      (hmset st k
        [(RedisDeviceTokenNameField, nm), (RedisDeviceTokenPermissionField, pm),
         (RedisDeviceTokenIDField, tid), (RedisDeviceTokenDeviceIDField, dev)])
      k RedisDeviceTokenIDField = some tid := by
  rw [hget_tokenRow]
  simp [RedisDeviceTokenIDField, RedisDeviceTokenDeviceIDField]

theorem hget_tokenRow_dev (st : RedisState) (k nm pm tid dev : String) :
    hget
      (hmset st k
        [(RedisDeviceTokenNameField, nm), (RedisDeviceTokenPermissionField, pm),
         (RedisDeviceTokenIDField, tid), (RedisDeviceTokenDeviceIDField, dev)])
      k RedisDeviceTokenDeviceIDField = some dev := by
  rw [hget_tokenRow]
  simp

theorem findToken_of_hgets (st2 : RedisState) (raw nm : String) (perm : Nat)
    (tid dev : String)
    (hp : hget st2 (genTokenRegistrationKey raw) RedisDeviceTokenPermissionField =
      some (toBin perm))
    (hi : hget st2 (genTokenRegistrationKey raw) RedisDeviceTokenIDField = some tid)
    (hn : hget st2 (genTokenRegistrationKey raw) RedisDeviceTokenNameField = some nm)
    (hd : hget st2 (genTokenRegistrationKey raw) RedisDeviceTokenDeviceIDField =
      some dev)
    (hperm : perm < 2 ^ 32) (hnm : nm ≠ "") (htid : tid ≠ "") (hdev : dev ≠ "") :
    findToken st2 raw = Except.ok ⟨tid, dev, "", nm, perm⟩ := by
  simp only [findToken, hgetstr, hmget3, hp, hi, hn, hd,
    parseUintBin32_toBin perm hperm, Option.getD_some]
  rw [if_neg]
  push_neg
  exact ⟨htid, hnm, hdev⟩

theorem binCore_one : binCore 1 = ['1'] := by
  rw [binCore, binCore]
  norm_num

theorem toBin_one : toBin 1 = "1" := by
  rw [toBin, if_neg (by norm_num : (1 : Nat) ≠ 0), binCore_one]

theorem toBin_viewer : toBin SecurityDeviceTokenPermissionViewer = "1" :=
  toBin_one

/-! ## Claim theorems -/

/-- C1: the claim pins the strict semantics — `AuthorizeToken(d, t, m)` is
true iff the device is found and either `t` is the shared secret or the
stored token's permission contains every bit of `m`.  The pooled version
satisfies it, but the conn-based version accepts any overlapping bit: on a
store holding device `dev-1` and token `tok-1` with stored mask `100`
(admin only), requesting mask `110` is granted by the conn-based code even
though `100 &&& 110 ≠ 110`. -/
theorem claim_c1_authorize_divergence :
    authorizeTokenConn exampleStore "dev-1" "tok-1" 6 = true ∧
    authorizeToken exampleStore "dev-1" "tok-1" 6 = false ∧
    findToken exampleStore "tok-1" =
      Except.ok ⟨"tid-1", "dev-1", "", "tkn-1", 4⟩ ∧
    4 &&& 6 ≠ 6 ∧ 4 &&& 6 ≠ 0 := by
  decide

/-- C2: after the Kill signal, the processor closes every connection of
the initial pool exactly once (the trace is exactly the closes followed by
the wait-handle release), and the wait-handle release is the last effect. -/
theorem claim_c2_kill_drains_pool (known : String → Bool) (pool : List String)
    (rest : List PInput) :
    procRun known pool (PInput.kill :: rest) =
      pool.map Effect.closeConn ++ [Effect.waitDone] ∧
    (∀ c, (procRun known pool (PInput.kill :: rest)).count (Effect.closeConn c) =
      pool.count c) ∧
    (procRun known pool (PInput.kill :: rest)).getLast? = some Effect.waitDone := by
  refine ⟨rfl, ?_, ?_⟩
  · intro c
    show (drainEffects pool).count (Effect.closeConn c) = pool.count c
    unfold drainEffects
    rw [List.count_append,
      List.count_map_of_injective pool Effect.closeConn
        (fun a b hab => by injection hab) c]
    simp [List.count_cons, List.count_nil]
  · show (drainEffects pool).getLast? = some Effect.waitDone
    unfold drainEffects
    exact List.getLast?_concat _

/-- C3: closure of the command stream or of the registration stream drives
the processor to exactly the same draining effect as the Kill signal:
every pooled connection is closed and the wait handle is then released. -/
theorem claim_c3_stream_closure_drains (known : String → Bool)
    (pool : List String) (rest : List PInput) :
    procRun known pool (PInput.commandsClosed :: rest) =
      procRun known pool (PInput.kill :: rest) ∧
    procRun known pool (PInput.registrationsClosed :: rest) =
      procRun known pool (PInput.kill :: rest) ∧
    procRun known pool (PInput.commandsClosed :: rest) =
      pool.map Effect.closeConn ++ [Effect.waitDone] ∧
    procRun known pool (PInput.registrationsClosed :: rest) =
      pool.map Effect.closeConn ++ [Effect.waitDone] := by
  exact ⟨rfl, rfl, rfl, rfl⟩

/-- C9: whenever `FindDevice` succeeds, every field of the returned
details is a non-empty string, on the fast EXISTS path (through
`loadDetails`) and on the KEYS-scan fallback alike. -/
theorem claim_c9_find_device_nonempty (st : RedisState) (q : String)
    (d : RegistrationDetails) (h : findDevice st q = Except.ok d) :
    d.deviceID ≠ "" ∧ d.name ≠ "" ∧ d.sharedSecret ≠ "" := by
  simp only [findDevice] at h
  by_cases he : existsKey st (genRegistryKey q)
  · rw [if_pos he] at h
    unfold loadDetails at h
    cases hm : hmget3 st (genRegistryKey q) RedisDeviceIDField
        RedisDeviceNameField RedisDeviceSecretField with
    | error e => rw [hm] at h; exact absurd h (by simp)
    | ok v =>
      rw [hm] at h
      obtain ⟨hv1, hv2, hv3⟩ := hmget3_ok_ne_empty st (genRegistryKey q) _ _ _ v hm
      obtain ⟨v1, v2, v3⟩ := v
      dsimp only at h
      by_cases hlen : v1.length ≤ 1 ∨ v2.length ≤ 1 ∨ v3.length ≤ 1
      · rw [if_pos hlen] at h; exact absurd h (by simp)
      · rw [if_neg hlen] at h
        obtain rfl : d = _ := (Except.ok.injEq _ _).mp h.symm
        exact ⟨hv1, hv2, hv3⟩
  · rw [if_neg he] at h
    exact scanDevices_ok_ne_empty st q _ d h

/-- Witness for C9 at a concrete store. -/
theorem claim_c9_witness :
    (RegistrationDetails.mk "dev-1" "lamp" "saysss").deviceID ≠ "" ∧
    (RegistrationDetails.mk "dev-1" "lamp" "saysss").name ≠ "" ∧
    (RegistrationDetails.mk "dev-1" "lamp" "saysss").sharedSecret ≠ "" :=
  claim_c9_find_device_nonempty exampleStore "dev-1" _ (by decide)

/-- C10: a row whose secret-field read yields a nil reply is skipped by
the `FillRegistration` scan: the scan behaves exactly as if the row were
absent, so the per-row error is never surfaced and a later matching row is
still filled. -/
theorem claim_c10_fill_scan_skips_bad_rows (st : RedisState)
    (secret deviceID : String) (ks1 : List String) (k : String)
    (ks2 : List String) (h : hget st k RedisRegistrationSecretField = none) :
    fillScan st secret deviceID (ks1 ++ k :: ks2) =
      fillScan st secret deviceID (ks1 ++ ks2) := by
  induction ks1 with
  | nil =>
    simp only [List.nil_append, fillScan]
    rw [h]
  | cons k0 ks1 ih =>
    simp only [List.cons_append, fillScan]
    cases h0 : hget st k0 RedisRegistrationSecretField with
    | none => exact ih
    | some s =>
      dsimp only
      by_cases hs : s = secret
      · simp only [if_pos hs]
      · simp only [if_neg hs]
        exact ih

/-- Witness for C10: the broken row `b0` is skipped and the matching row
`g1` behind it is still reached. -/
theorem claim_c10_witness :
    hget skipStore "registration-request:b0" RedisRegistrationSecretField = none ∧
    fillScan skipStore "sec-sec" "dev-9"
        ([] ++ "registration-request:b0" :: ["registration-request:g1"]) =
      fillScan skipStore "sec-sec" "dev-9" ([] ++ ["registration-request:g1"]) :=
  ⟨by decide,
    claim_c10_fill_scan_skips_bad_rows skipStore "sec-sec" "dev-9" []
      "registration-request:b0" ["registration-request:g1"] (by decide)⟩

/-- Helper for C6: the `FillRegistration` scan over keys none of which
carries the target secret finds nothing and leaves the state alone. -/
theorem fillScan_not_found (st : RedisState) (secret deviceID : String) :
    ∀ ks, (∀ k ∈ ks, hget st k RedisRegistrationSecretField ≠ some secret) →
      fillScan st secret deviceID ks = (Except.error ErrNotFound, st) := by
  intro ks
  induction ks with
  | nil => intro _; rfl
  | cons k ks ih =>
    intro hall
    show (match hget st k RedisRegistrationSecretField with
      | none => fillScan st secret deviceID ks
      | some s =>
        if s = secret then fillRow st k deviceID
        else fillScan st secret deviceID ks) = (Except.error ErrNotFound, st)
    cases h0 : hget st k RedisRegistrationSecretField with
    | none => exact ih (fun x hx => hall x (List.mem_cons_of_mem k hx))
    | some s =>
      dsimp only
      have hs : s ≠ secret := by
        intro hcontra
        exact hall k (List.mem_cons_self k ks) (hcontra ▸ h0)
      rw [if_neg hs]
      exact ih (fun x hx => hall x (List.mem_cons_of_mem k hx))

/-- C6: when no pending allocation row carries the secret,
`FillRegistration` returns not-found and leaves the store untouched — no
index LPUSH, no device HMSET, no DEL. -/
theorem claim_c6_fill_no_match_is_noop (st : RedisState)
    (secret deviceID : String)
    (h : ∀ k ∈ hashKeysMatching st RedisRegistrationRequestListKey,
      hget st k RedisRegistrationSecretField ≠ some secret) :
    fillRegistration st secret deviceID = (Except.error ErrNotFound, st) :=
  fillScan_not_found st secret deviceID _ h

/-- Witness for C6 at a concrete store with one non-matching allocation. -/
theorem claim_c6_witness :
    fillRegistration allocStore "mysecret" "dev-7" =
      (Except.error ErrNotFound, allocStore) :=
  claim_c6_fill_no_match_is_noop allocStore "mysecret" "dev-7" (by decide)

/-- C4: a successful `LogFeedback` leaves the device's feedback list at no
more than `MAX_FEEDBACK` entries; when the pre-insert length is at least
`MAX_FEEDBACK` the list is first trimmed to `MAX_FEEDBACK - 1` entries and
only then is the new entry pushed. -/
theorem claim_c4_feedback_bounded (st : RedisState) (msg : FeedbackMessage)
    (auth : MessageAuthentication) (d : RegistrationDetails) (st2 : RedisState)
    (hauth : msg.authentication = some auth)
    (hfd : findDevice st auth.deviceID = Except.ok d)
    (hlog : logFeedback st msg = (Except.ok (), st2)) :
    (getList st2 (genFeedbackKey d.deviceID)).length ≤ RedisMaxFeedbackEntries ∧
    (RedisMaxFeedbackEntries ≤ (getList st (genFeedbackKey d.deviceID)).length →
      getList st2 (genFeedbackKey d.deviceID) =
        marshalFeedback msg ::
          (getList st (genFeedbackKey d.deviceID)).take (RedisMaxFeedbackEntries - 1)) := by
  simp only [logFeedback, hauth, hfd] at hlog
  have hst := congrArg Prod.snd hlog
  simp only at hst
  rw [← hst]
  by_cases hc : RedisMaxFeedbackEntries ≤ llen st (genFeedbackKey d.deviceID)
  · rw [if_pos hc]
    constructor
    · rw [getList_lpush, if_pos rfl, getList_ltrim, if_pos rfl]
      simp only [List.length_cons, List.length_take]
      have : min (RedisMaxFeedbackEntries - 2 + 1)
          (getList st (genFeedbackKey d.deviceID)).length ≤
          RedisMaxFeedbackEntries - 2 + 1 := Nat.min_le_left _ _
      simp only [RedisMaxFeedbackEntries] at this ⊢
      omega
    · intro _
      rw [getList_lpush, if_pos rfl, getList_ltrim, if_pos rfl]
      norm_num [RedisMaxFeedbackEntries]
  · rw [if_neg hc]
    constructor
    · rw [getList_lpush, if_pos rfl]
      have hlt : (getList st (genFeedbackKey d.deviceID)).length <
          RedisMaxFeedbackEntries := Nat.lt_of_not_le hc
      simp only [List.length_cons]
      omega
    · intro hge
      exact absurd hge hc

/-- Witness for C4: a successful feedback insert on the example store. -/
theorem claim_c4_witness :
    ∃ st2, logFeedback exampleStore exampleFeedback = (Except.ok (), st2) ∧
      (getList st2
        (genFeedbackKey (RegistrationDetails.mk "dev-1" "lamp" "saysss").deviceID)).length ≤
        RedisMaxFeedbackEntries :=
  ⟨_, rfl,
    (claim_c4_feedback_bounded exampleStore exampleFeedback
      ⟨"dev-1", ""⟩ ⟨"dev-1", "lamp", "saysss"⟩ _ rfl (by decide) rfl).1⟩

/-- C5 counterexample: the claim predicts the invalid-registration error
whenever the shared secret decodes to fewer than 20 bytes, but a 20-hex-
character secret (10 decoded bytes) passes the code's check, which
compares the string length — not the decoded length — against 20. -/
theorem claim_c5_counterexample :
    hexDecodedLength "aaaaaaaaaaaaaaaaaaaa" < 20 ∧
    ¬ ("name".length < 4) ∧
    (allocateRegistration emptyStore "a1"
        ⟨"name", "aaaaaaaaaaaaaaaaaaaa"⟩).1 ≠
      Except.error ErrInvalidRegistrationRequest := by
  decide

/-- C5 (amended): `AllocateRegistration` returns the invalid-registration
error exactly when the name is shorter than 4 characters or the shared
secret string is shorter than 20 characters (i.e. decodes to fewer than 10
bytes); every request passing both minimums is written via HMSET. -/
theorem claim_c5_allocate_validation (st : RedisState) (allocID : String)
    (req : RegistrationRequest) :
    ((allocateRegistration st allocID req).1 =
        Except.error ErrInvalidRegistrationRequest ↔
      (req.name.length < 4 ∨
        req.sharedSecret.length < SecurityMinimumDeviceSharedSecretSize)) ∧
    (¬ (req.name.length < 4 ∨
        req.sharedSecret.length < SecurityMinimumDeviceSharedSecretSize) →
      allocateRegistration st allocID req =
        (Except.ok (),
          hmset st (genAllocationKey allocID)
            [(RedisRegistrationNameField, req.name),
             (RedisRegistrationSecretField, req.sharedSecret)])) := by
  unfold allocateRegistration
  by_cases hv : req.name.length < 4 ∨
      req.sharedSecret.length < SecurityMinimumDeviceSharedSecretSize
  · rw [if_pos hv]
    exact ⟨⟨fun _ => hv, fun _ => rfl⟩, fun hn => absurd hv hn⟩
  · rw [if_neg hv]
    exact ⟨⟨fun hcontra => absurd hcontra (by simp), fun hcontra => absurd hcontra hv⟩,
      fun _ => rfl⟩

/-- Witness for the amended C5 on a request passing both minimums. -/
theorem claim_c5_witness :
    ¬ (("valid-name" : String).length < 4 ∨
      ("12345678901234567890" : String).length < SecurityMinimumDeviceSharedSecretSize) ∧
    allocateRegistration emptyStore "a1" ⟨"valid-name", "12345678901234567890"⟩ =
      (Except.ok (),
        hmset emptyStore (genAllocationKey "a1")
          [(RedisRegistrationNameField, "valid-name"),
           (RedisRegistrationSecretField, "12345678901234567890")]) :=
  ⟨by decide,
    (claim_c5_allocate_validation emptyStore "a1"
      ⟨"valid-name", "12345678901234567890"⟩).2 (by decide)⟩

/-- C7: a token created with a 32-bit-representable permission mask is
recovered by `FindToken` with exactly that permission — the base-2 ASCII
encoding round-trips. -/
theorem claim_c7_permission_roundtrip (st : RedisState) (dev nm : String)
    (perm : Nat) (tid raw : String) (out : TokenDetails × RedisState)
    (hok : createToken st dev nm perm tid raw = Except.ok out)
    (hperm : perm < 2 ^ 32) (hnm : nm ≠ "") (htid : tid ≠ "") (hdev : dev ≠ "") :
    ∃ d, findToken out.2 raw = Except.ok d ∧ d.permission = perm := by
  obtain ⟨hd1, hd2⟩ := createToken_ok st dev nm perm tid raw out hok
  refine ⟨⟨tid, dev, "", nm, perm⟩, ?_, rfl⟩
  rw [hd2]
  exact findToken_of_hgets _ raw nm perm tid dev
    (hget_tokenRow_perm _ _ nm (toBin perm) tid dev)
    (hget_tokenRow_id _ _ nm (toBin perm) tid dev)
    (hget_tokenRow_name _ _ nm (toBin perm) tid dev)
    (hget_tokenRow_dev _ _ nm (toBin perm) tid dev)
    hperm hnm htid hdev

/-- Witness for C7: create-then-find on the example store with mask
`101`. -/
theorem claim_c7_witness :
    ∃ out, createToken exampleStore "dev-1" "nm-tok" 5 "tid-2" "raw-2" =
        Except.ok out ∧
      ∃ d, findToken out.2 "raw-2" = Except.ok d ∧ d.permission = 5 :=
  ⟨_, rfl,
    claim_c7_permission_roundtrip exampleStore "dev-1" "nm-tok" 5 "tid-2" "raw-2"
      _ rfl (by norm_num) (by decide) (by decide) (by decide)⟩

/-- C8: when the requested permission has none of the known bits
(`viewer ||| controller ||| admin = 7`), the handler substitutes the
viewer permission, so a successful create stores permission 1 (mask
`"1"`). -/
theorem claim_c8_default_viewer (st : RedisState) (request : TokenRequest)
    (headerToken tid raw : String) (d : TokenDetails) (st2 : RedisState)
    (hmask : request.permission &&& SecurityDeviceTokenPermissionAll = 0)
    (h : tokensCreateToken st request headerToken tid raw =
      HandlerResult.ok d st2) :
    d.permission = SecurityDeviceTokenPermissionViewer ∧
    hget st2 (genTokenRegistrationKey raw) RedisDeviceTokenPermissionField =
      some "1" := by
  simp only [tokensCreateToken, hmask, reduceIte] at h
  by_cases hname : request.name.length < 5
  · rw [if_pos hname] at h
    exact absurd h (by simp)
  · rw [if_neg hname] at h
    cases hfd : findDevice st request.deviceID with
    | error e =>
      rw [hfd] at h
      exact absurd h (by simp)
    | ok reg =>
      rw [hfd] at h
      dsimp only at h
      by_cases hht : headerToken = ""
      · rw [if_pos hht] at h
        exact absurd h (by simp)
      · rw [if_neg hht] at h
        by_cases hauthz : authorizeToken st reg.deviceID headerToken
            SecurityDeviceTokenPermissionAdmin = false
        · rw [if_pos hauthz] at h
          exact absurd h (by simp)
        · rw [if_neg hauthz] at h
          cases hct : createToken st reg.deviceID request.name
              SecurityDeviceTokenPermissionViewer tid raw with
          | error e =>
            rw [hct] at h
            exact absurd h (by simp)
          | ok out =>
            rw [hct] at h
            obtain ⟨dd, sst⟩ := out
            dsimp only at h
            obtain ⟨rfl, rfl⟩ : dd = d ∧ sst = st2 := by
              simpa using h
            obtain ⟨h1, h2⟩ := createToken_ok _ _ _ _ _ _ _ hct
            have h1a : dd = ⟨tid, reg.deviceID, raw, request.name,
                SecurityDeviceTokenPermissionViewer⟩ := h1
            have h2a : sst =
                hmset (lpush st (genTokenListKey reg.deviceID) raw)
                  (genTokenRegistrationKey raw)
                  [(RedisDeviceTokenNameField, request.name),
                   (RedisDeviceTokenPermissionField,
                     toBin SecurityDeviceTokenPermissionViewer),
                   (RedisDeviceTokenIDField, tid),
                   (RedisDeviceTokenDeviceIDField, reg.deviceID)] := h2
            constructor
            · rw [h1a]
            · have hp : hget sst (genTokenRegistrationKey raw)
                  RedisDeviceTokenPermissionField =
                  some (toBin SecurityDeviceTokenPermissionViewer) := by
                rw [h2a]
                exact hget_tokenRow_perm _ _ _ _ _ _
              rw [hp, toBin_viewer]

/-- Witness for C8: permission `8` has no known bit; the created token
carries the viewer permission. -/
theorem claim_c8_witness :
    ∃ d st2, tokensCreateToken exampleStore ⟨"dev-1", "token", 8⟩ "saysss"
        "tid-3" "raw-3" = HandlerResult.ok d st2 ∧
      d.permission = SecurityDeviceTokenPermissionViewer ∧
      hget st2 (genTokenRegistrationKey "raw-3")
        RedisDeviceTokenPermissionField = some "1" :=
  ⟨_, _, rfl,
    claim_c8_default_viewer exampleStore ⟨"dev-1", "token", 8⟩ "saysss"
      "tid-3" "raw-3" _ _ (by decide) rfl⟩

end Beacon
